import Mathlib

/-!
Verification of the Constellation Cursor DRM interposition library
(`src/lib.rs` of keygenesis/The_Constellation_Cursor).

The definitions below shallowly embed the Rust source.  Machine integers
are modelled by `Nat`/`Int` (no overflow occurs on the modelled paths:
all channel arithmetic stays below `2^32`); `f32` geometry and fade
arithmetic are modelled over `ℚ`/`ℕ` at values that are exactly
representable in `f32` in the source; the mutable global state of the
interception layer (`CURSOR_*` atomics, plane registry arrays) is
modelled by explicit state records passed through the call models; the
external DRM driver (ioctl results, property enumeration results, the
resolved "real" entry points) is modelled by explicit environment
parameters.
-/

namespace ConstellationCursor

/-! ## Alpha blending: `blend_pixel` (lib.rs:2008-2032)

`u32` pixels are ARGB8888 words, modelled as `ℕ`; `>>`, `&`, `<<`, `|`
are `Nat.shiftRight`, `Nat.land`, `Nat.shiftLeft`, `Nat.lor`.  All
intermediate products are below `2^32`, so `u32` wrap-around never
fires and plain `ℕ` arithmetic is exact. -/

/-- Model of `blend_pixel` (lib.rs:2008): source-over-destination
compositing in integer arithmetic scaled by 255. -/
def blend_pixel (dst src : ℕ) : ℕ :=
  let sa := (src >>> 24) &&& 0xFF
  if sa = 0 then dst
  else if sa = 255 then src
  else
    let da := (dst >>> 24) &&& 0xFF
    let sr := (src >>> 16) &&& 0xFF
    let sg := (src >>> 8) &&& 0xFF
    let sb := src &&& 0xFF
    let dr := (dst >>> 16) &&& 0xFF
    let dg := (dst >>> 8) &&& 0xFF
    let db := dst &&& 0xFF
    let inv_sa := 255 - sa
    let out_a := sa + (da * inv_sa) / 255
    let out_r := (sr * sa + dr * inv_sa) / 255
    let out_g := (sg * sa + dg * inv_sa) / 255
    let out_b := (sb * sa + db * inv_sa) / 255
    (out_a <<< 24) ||| (out_r <<< 16) ||| (out_g <<< 8) ||| out_b

/-! ## Cursor plane registry (lib.rs:2450-2459, 2571-2602)

The source keeps `CURSOR_PLANE_IDS: [u32; 8]` with a fill count
`NUM_CURSOR_PLANES`, and five parallel `[u32; 8]` arrays of property
ids.  We model the filled slots `0 .. NUM_CURSOR_PLANES` as a list of
entries; unused slots hold zeros in the source and are never read
(every read is guarded by an index below `NUM_CURSOR_PLANES` or below
8 at a freshly registered slot). -/

/-- One registry slot: `CURSOR_PLANE_IDS[i]` together with
`CURSOR_FB_PROP_IDS[i]`, `CURSOR_SRC_W_PROP_IDS[i]`,
`CURSOR_SRC_H_PROP_IDS[i]`, `CURSOR_CRTC_W_PROP_IDS[i]`,
`CURSOR_CRTC_H_PROP_IDS[i]`. -/
structure PlaneEntry where
  planeId : ℕ
  fbProp : ℕ
  srcWProp : ℕ
  srcHProp : ℕ
  crtcWProp : ℕ
  crtcHProp : ℕ
deriving Repr, DecidableEq

abbrev Registry := List PlaneEntry

/-- Model of `get_cursor_plane_index` (lib.rs:2595): linear scan over the
registered planes, first match wins. -/
def get_cursor_plane_index (reg : Registry) (planeId : ℕ) : Option ℕ :=
  reg.findIdx? (fun e => e.planeId == planeId)

/-- Model of `register_cursor_plane` (lib.rs:2580): return the existing
index if present, else append when below capacity 8 (fresh slots carry
zero property ids, as the source arrays do), else return the
out-of-range index 8 without modifying anything. -/
def register_cursor_plane (reg : Registry) (planeId : ℕ) : ℕ × Registry :=
  match reg.findIdx? (fun e => e.planeId == planeId) with
  | some i => (i, reg)
  | none =>
      if reg.length < 8 then
        (reg.length, reg ++ [⟨planeId, 0, 0, 0, 0, 0⟩])
      else (8, reg)

/-- Outcome of the property enumeration for one plane
(`drmModeObjectGetProperties` + per-property `drmModeGetProperty` name
scan, lib.rs:2714-2761): whether a property named "type" had value
`DRM_PLANE_TYPE_CURSOR`, and the ids of the properties named
"FB_ID", "SRC_W", "SRC_H", "CRTC_W", "CRTC_H" (0 when absent). -/
structure PlaneQuery where
  isCursor : Bool
  fbProp : ℕ
  srcWProp : ℕ
  srcHProp : ℕ
  crtcWProp : ℕ
  crtcHProp : ℕ
deriving Repr, DecidableEq

/-- Model of the `if idx < 8 { if fb_id_prop != 0 { ... } ... }` block
(lib.rs:2770-2786) that stores the enumerated property ids into the
slot returned by `register_cursor_plane`. -/
def recordProps (reg : Registry) (idx : ℕ) (q : PlaneQuery) : Registry :=
  if idx < 8 then
    match reg.get? idx with
    | some e =>
        reg.set idx
          { e with
            fbProp := if q.fbProp ≠ 0 then q.fbProp else e.fbProp
            srcWProp := if q.srcWProp ≠ 0 then q.srcWProp else e.srcWProp
            srcHProp := if q.srcHProp ≠ 0 then q.srcHProp else e.srcHProp
            crtcWProp := if q.crtcWProp ≠ 0 then q.crtcWProp else e.crtcWProp
            crtcHProp := if q.crtcHProp ≠ 0 then q.crtcHProp else e.crtcHProp }
    | none => reg
  else reg

/-- Result of `try_detect_cursor_plane`: the returned boolean, the
updated registry, and whether the expensive property enumeration
actually ran on this call. -/
structure DetectResult where
  found : Bool
  reg : Registry
  queried : Bool
deriving Repr, DecidableEq

/-- Model of `try_detect_cursor_plane` (lib.rs:2702-2798).  `env` gives,
per plane id, the (fixed) outcome of the property enumeration on this
device; `fdCaptured` is `CURSOR_FD >= 0`.  The real helper functions
are taken as resolved and the properties pointer as non-null (the
claims quantify over that situation). -/
def try_detect_cursor_plane (env : ℕ → PlaneQuery) (fdCaptured : Bool)
    (reg : Registry) (objectId : ℕ) : DetectResult :=
  if !fdCaptured then ⟨false, reg, false⟩
  else if (get_cursor_plane_index reg objectId).isSome then ⟨true, reg, false⟩
  else
    let q := env objectId
    if q.isCursor then
      let r := register_cursor_plane reg objectId
      ⟨true, recordProps r.2 r.1 q, true⟩
    else ⟨false, reg, true⟩

/-! ## DRM surface creation: `create_cursor_buffer` (lib.rs:535-606) -/

/-- Result of the `DRM_IOCTL_MODE_CREATE_DUMB` ioctl. -/
structure DumbInfo where
  handle : ℕ
  pitch : ℕ
  size : ℕ
deriving Repr, DecidableEq

/-- Environment for one `create_cursor_buffer` run: outcomes of the
four fallible steps (dumb-buffer create, dumb-buffer map, `mmap`,
`DRM_IOCTL_MODE_ADDFB2`), `none`/`false` meaning failure. -/
structure CreateEnv where
  createDumb : Option DumbInfo
  mapDumb : Option ℕ
  mmapOk : Bool
  addFb : Option ℕ
deriving Repr, DecidableEq

/-- The globals owned by the resource manager: `INITIALIZED`,
`CURSOR_HANDLE`, `CURSOR_FB_ID`, `CURSOR_FD`, `CURSOR_WIDTH`,
`CURSOR_HEIGHT`, the `CURSOR_BUFFER` pointer (modelled as a non-null
flag), plus an instrumentation counter of `render_cursor` passes. -/
structure Surface where
  initialized : Bool
  handle : ℕ
  fbId : ℕ
  fd : Int
  width : ℕ
  height : ℕ
  bufferSet : Bool
  renderCalls : ℕ
deriving Repr, DecidableEq

/-- Model of `create_cursor_buffer` (lib.rs:535): each failing step
returns `false` before any global is written; on success all globals
are recorded, `INITIALIZED` is set and `render_cursor()` runs once
(the buffer pointer is non-null there, so the render pass is not
skipped). -/
def create_cursor_buffer (env : CreateEnv) (s : Surface) (fd : Int)
    (width height : ℕ) : Bool × Surface :=
  match env.createDumb with
  | none => (false, s)
  | some d =>
    match env.mapDumb with
    | none => (false, s)
    | some _ =>
      if !env.mmapOk then (false, s)
      else
        match env.addFb with
        | none => (false, s)
        | some fb =>
          (true,
            { s with
              fbId := fb
              bufferSet := true
              handle := d.handle
              fd := fd
              width := width
              height := height
              initialized := true
              renderCalls := s.renderCalls + 1 })

/-! ## Atomic interception: `drmModeAtomicAddProperty` (lib.rs:2801-2938) -/

/-- The configuration bits read on the atomic path:
`cursor_fade_enabled()` and `CONFIG_FADE_IN_ENABLED`. -/
structure Config where
  fadeEnabled : Bool
  fadeInEnabled : Bool
deriving Repr, DecidableEq

/-- The global state touched by the atomic path: the surface globals,
the fade flags `CURSOR_FADING_IN`/`CURSOR_FADING_OUT`,
`CURSOR_VISIBLE`, `CURSOR_FADE_ALPHA`, `FADE_THREAD_RUNNING`, and the
plane registry. -/
structure GlobalState where
  surface : Surface
  fadingIn : Bool
  fadingOut : Bool
  visible : Bool
  fadeAlpha : ℕ
  fadeThreadRunning : Bool
  reg : Registry
deriving Repr, DecidableEq

/-- Result of one intercepted `drmModeAtomicAddProperty` call:
`forwarded` is the `value` argument passed on to the real
`drmModeAtomicAddProperty` (`none` when the real function is
unresolved and the interceptor returns -1); the `object_id` and
`property_id` arguments are forwarded unchanged at every call site in
the source. -/
structure AtomicResult where
  forwarded : Option ℕ
  state : GlobalState
deriving Repr, DecidableEq

/-- `CURSOR_DISPLAY_SIZE` (lib.rs:457). -/
def CURSOR_DISPLAY_SIZE : ℕ := 64

/-- Model of the SRC_W/SRC_H/CRTC_W/CRTC_H overrides and the final
unmodified forward (lib.rs:2897-2931).  In the source each override is
`if prop != 0 && property_id == prop { if let Some(func) { return … } }`;
when the real function is unresolved the body is skipped and control
falls through, which the merged conditions reproduce. -/
def sizeChecks (realResolved : Bool) (st : GlobalState)
    (propertyId value : ℕ) (e : PlaneEntry) : AtomicResult :=
  if e.srcWProp ≠ 0 ∧ propertyId = e.srcWProp ∧ realResolved then
    ⟨some (CURSOR_DISPLAY_SIZE <<< 16), st⟩
  else if e.srcHProp ≠ 0 ∧ propertyId = e.srcHProp ∧ realResolved then
    ⟨some (CURSOR_DISPLAY_SIZE <<< 16), st⟩
  else if e.crtcWProp ≠ 0 ∧ propertyId = e.crtcWProp ∧ realResolved then
    ⟨some CURSOR_DISPLAY_SIZE, st⟩
  else if e.crtcHProp ≠ 0 ∧ propertyId = e.crtcHProp ∧ realResolved then
    ⟨some CURSOR_DISPLAY_SIZE, st⟩
  else if realResolved then ⟨some value, st⟩
  else ⟨none, st⟩

/-- Model of the show path of the FB_ID branch (lib.rs:2872-2894):
cancel any fade-out, mark visible, start a fade-in when enabled and
alpha is below full (`spawn_fade_in_thread` swaps
`FADE_THREAD_RUNNING` to true), else snap alpha to 255; then
substitute the owned framebuffer id when available. -/
def showBranch (cfg : Config) (realResolved : Bool) (st : GlobalState)
    (propertyId value : ℕ) (e : PlaneEntry) : AtomicResult :=
  let st1 := { st with fadingOut := false, visible := true }
  let st2 :=
    if cfg.fadeInEnabled ∧ ¬st1.fadingIn ∧ st1.fadeAlpha < 255 then
      { st1 with fadingIn := true, fadeAlpha := 10, fadeThreadRunning := true }
    else { st1 with fadeAlpha := 255 }
  if st2.surface.fbId ≠ 0 ∧ realResolved then ⟨some st2.surface.fbId, st2⟩
  else sizeChecks realResolved st2 propertyId value e

/-- Model of the FB_ID branch (lib.rs:2848-2895).  On a hide request
(`value == 0`) with fade enabled and no fade-out in progress, the
fade-out flag is set, `spawn_fade_out_thread` swaps
`FADE_THREAD_RUNNING` to true, and the owned framebuffer id is
forwarded instead of 0 so the fade stays visible; without fade the 0
is forwarded.  When the real function is unresolved, the source falls
through past the early returns into the show path. -/
def fbBranch (cfg : Config) (realResolved : Bool) (st : GlobalState)
    (propertyId value : ℕ) (e : PlaneEntry) : AtomicResult :=
  if e.fbProp ≠ 0 ∧ propertyId = e.fbProp then
    if value = 0 then
      let stA := { st with fadingIn := false, visible := false }
      if cfg.fadeEnabled ∧ ¬stA.fadingOut then
        let stB := { stA with fadingOut := true, fadeThreadRunning := true }
        if stB.surface.fbId ≠ 0 ∧ realResolved then
          ⟨some stB.surface.fbId, stB⟩
        else if realResolved then ⟨some 0, stB⟩
        else showBranch cfg realResolved stB propertyId value e
      else if realResolved then ⟨some 0, stA⟩
      else showBranch cfg realResolved stA propertyId value e
    else showBranch cfg realResolved st propertyId value e
  else sizeChecks realResolved st propertyId value e

/-- Model of `drmModeAtomicAddProperty` (lib.rs:2801-2938).
`env` is the device's property enumeration (see
`try_detect_cursor_plane`), `createEnv` the ioctl outcomes of a lazy
surface creation, `realResolved` whether `REAL_ATOMIC_ADD` resolved.
`check_cursor_refresh`/`check_config_changed` only hot-reload the
configuration (already a parameter here) and re-render the unchanged
buffer, so they are not part of the modelled state transition. -/
def drmModeAtomicAddProperty (cfg : Config) (env : ℕ → PlaneQuery)
    (createEnv : CreateEnv) (realResolved : Bool) (st0 : GlobalState)
    (objectId propertyId value : ℕ) : AtomicResult :=
  let det :=
    if (get_cursor_plane_index st0.reg objectId).isSome then
      DetectResult.mk true st0.reg false
    else
      try_detect_cursor_plane env (decide (0 ≤ st0.surface.fd)) st0.reg objectId
  let st1 := { st0 with reg := det.reg }
  if det.found then
    let st2 :=
      if ¬st1.surface.initialized then
        if 0 ≤ st1.surface.fd then
          { st1 with
            surface :=
              (create_cursor_buffer createEnv st1.surface st1.surface.fd 256 256).2 }
        else st1
      else st1
    match get_cursor_plane_index st2.reg objectId with
    | some idx =>
        fbBranch cfg realResolved st2 propertyId value
          ((st2.reg.get? idx).getD ⟨0, 0, 0, 0, 0, 0⟩)
    | none =>
        if realResolved then ⟨some value, st2⟩ else ⟨none, st2⟩
  else
    if realResolved then ⟨some value, st1⟩ else ⟨none, st1⟩

/-! ## Legacy hotspot smoothing: `drmModeSetCursor2` (lib.rs:2192-2238) -/

/-- `HOTSPOT_INITIALIZED`, `APPLIED_HOTSPOT_X`, `APPLIED_HOTSPOT_Y`. -/
structure HotspotState where
  initialized : Bool
  appliedX : Int
  appliedY : Int
deriving Repr, DecidableEq

/-- Model of the hotspot-selection logic of `drmModeSetCursor2`
(lib.rs:2192-2238) on the show path.  Inputs are the already-offset
hotspot `new_hot_* = hot_* + CURSOR_HOTSPOT_*`, the
`CONFIG_HOTSPOT_SMOOTHING` flag and `CONFIG_HOTSPOT_THRESHOLD`.
Returns the `(final_hot_x, final_hot_y)` placed into the forwarded
cursor ioctl and the updated applied-hotspot state.  `Int.tdiv` is
Rust's `i32` division (truncation toward zero). -/
def drmModeSetCursor2_hotspot (smoothing : Bool) (threshold : Int)
    (st : HotspotState) (newHotX newHotY : Int) :
    (Int × Int) × HotspotState :=
  if ¬st.initialized then
    ((newHotX, newHotY), ⟨true, newHotX, newHotY⟩)
  else if smoothing then
    let dx := |newHotX - st.appliedX|
    let dy := |newHotY - st.appliedY|
    if dx > threshold ∨ dy > threshold then
      let fx := st.appliedX + Int.tdiv (newHotX - st.appliedX) 3
      let fy := st.appliedY + Int.tdiv (newHotY - st.appliedY) 3
      ((fx, fy), ⟨true, fx, fy⟩)
    else ((st.appliedX, st.appliedY), st)
  else ((newHotX, newHotY), ⟨true, newHotX, newHotY⟩)

/-! ## Fade progression (lib.rs:2286-2332, 2334-2376)

Both fade threads run `let step = fade_speed.max(5.0)` and update a
local `alpha` (`f32`) once per frame.  `fade_speed` is an integer
(`CONFIG_FADE_SPEED`, clamped to 1..=255 when loaded), so every value
`alpha` takes is a nonnegative integer ≤ 255 and the `f32` arithmetic
is exact; we model the per-tick alpha sequence over `ℕ`, where
truncated subtraction is exactly `(alpha - step).max(0.0)`. -/

/-- `fade_speed.max(5.0)` (lib.rs:2294/2342). -/
def fadeStep (speed : ℕ) : ℕ := max speed 5

/-- Alpha after `k` ticks of the fade-out loop body
`alpha = (alpha - step).max(0.0)` starting from 255 (lib.rs:2296-2303). -/
def fadeOutAlpha (speed : ℕ) : ℕ → ℕ
  | 0 => 255
  | k + 1 => fadeOutAlpha speed k - fadeStep speed

/-- Alpha after `k` ticks of the fade-in loop body
`alpha = (alpha + step).min(255.0)` starting from 0 (lib.rs:2344-2351). -/
def fadeInAlpha (speed : ℕ) : ℕ → ℕ
  | 0 => 0
  | k + 1 => min (fadeInAlpha speed k + fadeStep speed) 255

/-- `⌈255 / step⌉`: the step bound within which the fades complete. -/
def fadeOutStepBound (speed : ℕ) : ℕ :=
  (255 + fadeStep speed - 1) / fadeStep speed

/-! ## Geometry: `transform_points` (lib.rs:799-845)

`f32` points are modelled over `ℚ`.  The source computes
`cos_r`/`sin_r` from `rotation_deg`; the model takes those two values
as rational parameters (`rotation_deg = 0` corresponds to `cosr = 1`,
`sinr = 0`, which is exact in `f32`). -/

/-- `iter().map(…).fold(f32::MAX, f32::min)` (lib.rs:829-830): for a
nonempty list this is the least element (every `f32` value is below
`f32::MAX`), folded in iteration order. -/
def foldMin : List ℚ → ℚ
  | [] => 0
  | x :: xs => xs.foldl min x

/-- Rust `f32::round`: round half away from zero. -/
def rustRound (x : ℚ) : Int :=
  if 0 ≤ x then ⌊x + 1 / 2⌋ else -⌊-x + 1 / 2⌋

/-- The per-point map of `transform_points` (lib.rs:815-826): offset so
the hotspot `h` is at the origin, scale, then rotate by the matrix
`[[cosr, -sinr], [sinr, cosr]]`. -/
def rotScale (h : ℚ × ℚ) (scale cosr sinr : ℚ) (q : ℚ × ℚ) : ℚ × ℚ :=
  ((q.1 - h.1) * scale * cosr - (q.2 - h.2) * scale * sinr,
   (q.1 - h.1) * scale * sinr + (q.2 - h.2) * scale * cosr)

/-- Model of `transform_points` (lib.rs:799): offset to the hotspot
(the first point), scale, rotate, renormalize to the bounding box,
and return the rounded normalization offset. -/
def transform_points (points : List (ℚ × ℚ)) (scale cosr sinr : ℚ) :
    List (ℚ × ℚ) × (Int × Int) :=
  match points with
  | [] => ([], (0, 0))
  | p0 :: _ =>
    let hx := p0.1
    let hy := p0.2
    let transformed := points.map fun q =>
      let dx := (q.1 - hx) * scale
      let dy := (q.2 - hy) * scale
      (dx * cosr - dy * sinr, dx * sinr + dy * cosr)
    let minX := foldMin (transformed.map Prod.fst)
    let minY := foldMin (transformed.map Prod.snd)
    let adjusted := transformed.map fun q => (q.1 - minX, q.2 - minY)
    (adjusted, (rustRound (-minX), rustRound (-minY)))

/-! ## Hex color parsing: `parse_color` (lib.rs:1526-1551)

Rust `&str` values are modelled as `List Char`; `str::find` of a
substring / of a char, `take_while`, and `from_str_radix(_, 16)` are
modelled below.  The parsed slices have length 2 and 6, so `u8`/`u32`
overflow in `from_str_radix` never fires. -/

/-- Rust `char::is_ascii_hexdigit`: `0-9`, `a-f`, `A-F`
(the guards compare code points: 48-57, 97-102, 65-70). -/
def isAsciiHexDigit (c : Char) : Bool :=
  (48 ≤ c.toNat && c.toNat ≤ 57) || (97 ≤ c.toNat && c.toNat ≤ 102) ||
    (65 ≤ c.toNat && c.toNat ≤ 70)

/-- Rust `char::to_digit(16)`. -/
def hexDigitVal (c : Char) : Option ℕ :=
  if 48 ≤ c.toNat ∧ c.toNat ≤ 57 then some (c.toNat - 48)
  else if 97 ≤ c.toNat ∧ c.toNat ≤ 102 then some (c.toNat - 97 + 10)
  else if 65 ≤ c.toNat ∧ c.toNat ≤ 70 then some (c.toNat - 65 + 10)
  else none

/-- Accumulating digit loop of `from_str_radix(_, 16)`. -/
def parseHexAux : List Char → ℕ → Option ℕ
  | [], acc => some acc
  | c :: cs, acc =>
    match hexDigitVal c with
    | none => none
    | some v => parseHexAux cs (acc * 16 + v)

/-- Model of `u8::from_str_radix(s, 16)` / `u32::from_str_radix(s, 16)`
on the short slices used by `parse_color` (no overflow at lengths 2
and 6): empty input and non-hex characters fail. -/
def from_str_radix16 (s : List Char) : Option ℕ :=
  match s with
  | [] => none
  | _ => parseHexAux s 0

/-- Rust `str::find(&str)`: index of the first occurrence of `pat`. -/
def findSub : List Char → List Char → Option ℕ
  | [], pat => if pat.isPrefixOf ([] : List Char) then some 0 else none
  | c :: t, pat =>
    if pat.isPrefixOf (c :: t) then some 0
    else (findSub t pat).map (· + 1)

/-- Rust `str::find(char)`: index of the first occurrence of `target`. -/
def findChar : List Char → Char → Option ℕ
  | [], _ => none
  | c :: t, target =>
    if c = target then some 0 else (findChar t target).map (· + 1)

/-- Model of `parse_color` (lib.rs:1526): locate `"key"`, then the next
`#`, collect the following ASCII hex digits, and decode 8- or 6-digit
forms into an `(alpha << 24) | rgb` word (6-digit alpha is 0xFF). -/
def parse_color (content : List Char) (key : List Char) : Option ℕ :=
  let pattern := '"' :: key ++ ['"']
  match findSub content pattern with
  | none => none
  | some start =>
    match findChar (content.drop start) '#' with
    | none => none
    | some hashPos =>
      let colorStart := start + hashPos + 1
      let hexChars := (content.drop colorStart).takeWhile isAsciiHexDigit
      if 6 ≤ hexChars.length then
        if 8 ≤ hexChars.length then
          match from_str_radix16 (hexChars.take 2) with
          | none => none
          | some a =>
            match from_str_radix16 ((hexChars.drop 2).take 6) with
            | none => none
            | some rgb => some ((a <<< 24) ||| rgb)
        else
          match from_str_radix16 (hexChars.take 6) with
          | none => none
          | some rgb => some ((0xFF <<< 24) ||| rgb)
      else none

/-- Total hex digit value (junk value 0 off the hex range), used to
state the round-trip theorem. -/
def hexVal (c : Char) : ℕ :=
  if c.toNat ≤ 57 then c.toNat - 48
  else if 97 ≤ c.toNat then c.toNat - 87
  else c.toNat - 55

/-- Value of a big-endian hex digit string. -/
def hexValList (cs : List Char) : ℕ :=
  cs.foldl (fun acc c => acc * 16 + hexVal c) 0

/-- A JSON fragment `"fill":"#<digits>"` as written by the cursor
design files that `parse_color` consumes. -/
def mkColorContent (digits : List Char) : List Char :=
  '"' :: 'f' :: 'i' :: 'l' :: 'l' :: '"' :: ':' :: '"' :: '#' ::
    (digits ++ ['"'])

/-! ## Concrete inputs used by the witnesses -/

/-- A device whose every plane enumerates as a cursor plane with
property ids 7, 8, 9, 10, 11. -/
def wEnvCursor : ℕ → PlaneQuery := fun _ => ⟨true, 7, 8, 9, 10, 11⟩

/-- A device whose every plane enumerates as a non-cursor plane. -/
def wEnvNone : ℕ → PlaneQuery := fun _ => ⟨false, 0, 0, 0, 0, 0⟩

/-- An initialized surface with framebuffer id 77 on fd 3. -/
def wSurface : Surface := ⟨true, 5, 77, 3, 256, 256, true, 1⟩

/-- A registered cursor plane 9 whose FB_ID property id is 33. -/
def wEntry : PlaneEntry := ⟨9, 33, 0, 0, 0, 0⟩

/-- A visible, non-fading state with plane 9 registered. -/
def wState : GlobalState := ⟨wSurface, false, false, true, 255, false, [wEntry]⟩

/-- A full registry of 8 distinct cursor planes. -/
def wReg8 : Registry :=
  [⟨1, 0, 0, 0, 0, 0⟩, ⟨2, 0, 0, 0, 0, 0⟩, ⟨3, 0, 0, 0, 0, 0⟩,
   ⟨4, 0, 0, 0, 0, 0⟩, ⟨5, 0, 0, 0, 0, 0⟩, ⟨6, 0, 0, 0, 0, 0⟩,
   ⟨7, 0, 0, 0, 0, 0⟩, ⟨8, 0, 0, 0, 0, 0⟩]

/-- A visible state whose registry is full. -/
def wStateFull : GlobalState := ⟨wSurface, false, false, true, 255, false, wReg8⟩

/-- An ioctl environment where every creation step fails. -/
def wCreateEnv : CreateEnv := ⟨none, none, false, none⟩

/-- Fade-out enabled, fade-in disabled. -/
def wCfg : Config := ⟨true, false⟩

/-! ## Helper lemmas -/

/-- Bit-or of disjoint ranges is addition: `(a <<< n) ||| b = a * 2^n + b`
for `b < 2^n`, stated on the multiplied form. -/
theorem lor_of_lt : ∀ (n a b : ℕ), b < 2 ^ n → (a * 2 ^ n) ||| b = a * 2 ^ n + b := by
  intro n
  induction n with
  | zero =>
    intro a b h
    interval_cases b
    simp
  | succ n ih =>
    intro a b h
    have hq : b / 2 < 2 ^ n := by
      have h2 : 2 ^ (n + 1) = 2 ^ n * 2 := by ring
      omega
    have hbit : b = Nat.bit (decide (b % 2 = 1)) (b / 2) := by
      rw [Nat.bit_val]
      have hd : (decide (b % 2 = 1)).toNat = b % 2 := by
        rcases Nat.mod_two_eq_zero_or_one b with hr | hr <;> rw [hr] <;> rfl
      rw [hd]
      omega
    have ha : a * 2 ^ (n + 1) = Nat.bit false (a * 2 ^ n) := by
      rw [Nat.bit_val]
      have hz : (false : Bool).toNat = 0 := rfl
      rw [hz]
      ring
    calc (a * 2 ^ (n + 1)) ||| b
        = Nat.bit false (a * 2 ^ n) ||| Nat.bit (decide (b % 2 = 1)) (b / 2) := by
          rw [← ha, ← hbit]
      _ = Nat.bit (false || decide (b % 2 = 1)) ((a * 2 ^ n) ||| (b / 2)) :=
          Nat.lor_bit _ _ _ _
      _ = Nat.bit (decide (b % 2 = 1)) (a * 2 ^ n + b / 2) := by
          rw [Bool.false_or, ih a (b / 2) hq]
      _ = 2 * (a * 2 ^ n + b / 2) + (decide (b % 2 = 1)).toNat := Nat.bit_val _ _
      _ = a * 2 ^ (n + 1) + b := by
          have hd : (decide (b % 2 = 1)).toNat = b % 2 := by
            rcases Nat.mod_two_eq_zero_or_one b with hr | hr <;> rw [hr] <;> rfl
          have h2 : a * 2 ^ (n + 1) = 2 * (a * 2 ^ n) + 0 := by ring
          rw [hd]
          omega

/-- `x &&& 0xFF` is `x % 256`. -/
theorem extract_low_byte (x : ℕ) : x &&& 255 = x % 256 := by
  have h := Nat.and_pow_two_sub_one_eq_mod x 8
  norm_num at h
  exact h

/-- Packing four bytes with shifts and ors equals the weighted sum. -/
theorem pack4_eq (a r g b : ℕ) (hr : r < 256) (hg : g < 256) (hb : b < 256) :
    (a <<< 24) ||| (r <<< 16) ||| (g <<< 8) ||| b =
      a * 2 ^ 24 + r * 2 ^ 16 + g * 2 ^ 8 + b := by
  rw [Nat.shiftLeft_eq, Nat.shiftLeft_eq, Nat.shiftLeft_eq]
  have h1 : (a * 2 ^ 24) ||| (r * 2 ^ 16) = a * 2 ^ 24 + r * 2 ^ 16 := by
    have : r * 2 ^ 16 < 2 ^ 24 := by
      calc r * 2 ^ 16 < 256 * 2 ^ 16 := by
            exact Nat.mul_lt_mul_of_lt_of_le hr (le_refl _) (by norm_num)
        _ = 2 ^ 24 := by norm_num
    exact lor_of_lt 24 a _ this
  rw [h1]
  have h2 : a * 2 ^ 24 + r * 2 ^ 16 = (a * 2 ^ 8 + r) * 2 ^ 16 := by ring
  have h3 : (a * 2 ^ 24 + r * 2 ^ 16) ||| (g * 2 ^ 8) =
      a * 2 ^ 24 + r * 2 ^ 16 + g * 2 ^ 8 := by
    rw [h2]
    have : g * 2 ^ 8 < 2 ^ 16 := by
      calc g * 2 ^ 8 < 256 * 2 ^ 8 := by
            exact Nat.mul_lt_mul_of_lt_of_le hg (le_refl _) (by norm_num)
        _ = 2 ^ 16 := by norm_num
    rw [lor_of_lt 16 _ _ this]
  rw [h3]
  have h4 : a * 2 ^ 24 + r * 2 ^ 16 + g * 2 ^ 8 =
      (a * 2 ^ 16 + r * 2 ^ 8 + g) * 2 ^ 8 := by ring
  rw [h4, lor_of_lt 8 _ _ hb]

/-- Byte extraction from a packed word. -/
theorem bytes_of_pack (a r g b : ℕ) (ha : a < 256) (hr : r < 256)
    (hg : g < 256) (hb : b < 256) :
    (a * 2 ^ 24 + r * 2 ^ 16 + g * 2 ^ 8 + b) / 2 ^ 24 % 256 = a ∧
    (a * 2 ^ 24 + r * 2 ^ 16 + g * 2 ^ 8 + b) / 2 ^ 16 % 256 = r ∧
    (a * 2 ^ 24 + r * 2 ^ 16 + g * 2 ^ 8 + b) / 2 ^ 8 % 256 = g ∧
    (a * 2 ^ 24 + r * 2 ^ 16 + g * 2 ^ 8 + b) % 256 = b := by
  refine ⟨?_, ?_, ?_, ?_⟩ <;> omega

/-- Setting the slot just past a list's end, on the list with that slot
appended, replaces the appended element. -/
theorem set_concat {α : Type} (l : List α) (a b : α) :
    (l ++ [a]).set l.length b = l ++ [b] := by
  induction l with
  | nil => rfl
  | cons x xs ih => simp [List.set, ih]

/-- An `if nonzero then the value else zero` cascade collapses. -/
theorem ite_ne_zero (n : ℕ) : (if n ≠ 0 then n else 0) = n := by
  split_ifs with h
  · rfl
  · omega

/-- A fresh detection of a cursor-type plane on a registry with room:
returns true, runs the enumeration, and appends an entry carrying
exactly the enumerated property ids. -/
theorem try_detect_fresh (env : ℕ → PlaneQuery) (reg : Registry) (p : ℕ)
    (hfree : reg.length < 8) (hnew : get_cursor_plane_index reg p = none)
    (hc : (env p).isCursor = true) :
    try_detect_cursor_plane env true reg p =
      ⟨true,
        reg ++ [⟨p, (env p).fbProp, (env p).srcWProp, (env p).srcHProp,
                (env p).crtcWProp, (env p).crtcHProp⟩], true⟩ := by
  have hfind : reg.findIdx? (fun e => e.planeId == p) = none := hnew
  have hrcp : register_cursor_plane reg p =
      (reg.length, reg ++ [⟨p, 0, 0, 0, 0, 0⟩]) := by
    unfold register_cursor_plane
    rw [hfind, if_pos hfree]
  have hget : (reg ++ [(⟨p, 0, 0, 0, 0, 0⟩ : PlaneEntry)]).get? reg.length =
      some ⟨p, 0, 0, 0, 0, 0⟩ := List.get?_concat_length _ _
  have hrp : recordProps (reg ++ [⟨p, 0, 0, 0, 0, 0⟩]) reg.length (env p) =
      reg ++ [⟨p, (env p).fbProp, (env p).srcWProp, (env p).srcHProp,
              (env p).crtcWProp, (env p).crtcHProp⟩] := by
    unfold recordProps
    rw [if_pos hfree, hget]
    simp [set_concat, ite_ne_zero]
    omega
  unfold try_detect_cursor_plane
  rw [hnew]
  simp only [Bool.not_true, Bool.false_eq_true, if_false, Option.isSome_none,
    hc, if_true, hrcp, hrp]

/-- A registered plane is recognized without any enumeration and the
registry is returned unchanged. -/
theorem try_detect_registered (env : ℕ → PlaneQuery) (reg : Registry)
    (p idx : ℕ) (hidx : get_cursor_plane_index reg p = some idx) :
    try_detect_cursor_plane env true reg p = ⟨true, reg, false⟩ := by
  unfold try_detect_cursor_plane
  rw [hidx]
  simp

/-- After a fresh registration the plane is found at the old length. -/
theorem get_index_concat (reg : Registry) (p : ℕ) (e : PlaneEntry)
    (hnew : get_cursor_plane_index reg p = none) (he : e.planeId = p) :
    get_cursor_plane_index (reg ++ [e]) p = some reg.length := by
  unfold get_cursor_plane_index at hnew ⊢
  rw [List.findIdx?_append, hnew]
  simp [List.findIdx?_cons, he]

/-- `register_cursor_plane` on a full registry of strangers: index 8,
registry unchanged. -/
theorem register_cursor_plane_full (reg : Registry) (p : ℕ)
    (hfull : reg.length = 8) (hnew : get_cursor_plane_index reg p = none) :
    register_cursor_plane reg p = (8, reg) := by
  have hfind : reg.findIdx? (fun e => e.planeId == p) = none := hnew
  unfold register_cursor_plane
  rw [hfind]
  simp [hfull]

/-- `try_detect_cursor_plane` never changes a full registry of
strangers. -/
theorem try_detect_full_reg (env : ℕ → PlaneQuery) (b : Bool)
    (reg : Registry) (p : ℕ) (hfull : reg.length = 8)
    (hnew : get_cursor_plane_index reg p = none) :
    (try_detect_cursor_plane env b reg p).reg = reg := by
  unfold try_detect_cursor_plane
  cases b with
  | false => simp
  | true =>
    rw [hnew]
    by_cases hc : (env p).isCursor = true
    · simp [hc, register_cursor_plane_full reg p hfull hnew, recordProps]
    · simp [hc]

/-- Folding `min` commutes with translating every element. -/
theorem foldl_min_map_sub (l : List ℚ) (x a : ℚ) :
    (l.map (fun y => y - a)).foldl min (x - a) = l.foldl min x - a := by
  induction l generalizing x with
  | nil => rfl
  | cons y ys ih =>
    simp only [List.map_cons, List.foldl_cons]
    rw [min_sub_sub_right, ih]

/-- The minimum of a translated nonempty list is the translated minimum. -/
theorem foldMin_map_sub (l : List ℚ) (a : ℚ) (hl : l ≠ []) :
    foldMin (l.map (fun y => y - a)) = foldMin l - a := by
  cases l with
  | nil => exact absurd rfl hl
  | cons x xs => exact foldl_min_map_sub xs x a

/-- On an ASCII hex digit, `to_digit(16)` succeeds with the digit's
value, which is below 16. -/
theorem hexDigitVal_of_isHex (c : Char) (h : isAsciiHexDigit c = true) :
    hexDigitVal c = some (hexVal c) ∧ hexVal c < 16 := by
  unfold isAsciiHexDigit at h
  simp only [Bool.or_eq_true, Bool.and_eq_true, decide_eq_true_eq] at h
  unfold hexDigitVal hexVal
  split_ifs
  all_goals exact ⟨by congr 1 <;> omega, by omega⟩

/-- The digit loop of `from_str_radix` succeeds on all-hex input and
computes the big-endian fold. -/
theorem parseHexAux_hex (cs : List Char) (acc : ℕ)
    (h : ∀ c ∈ cs, isAsciiHexDigit c = true) :
    parseHexAux cs acc =
      some (cs.foldl (fun a c => a * 16 + hexVal c) acc) := by
  induction cs generalizing acc with
  | nil => rfl
  | cons c cs ih =>
    simp only [parseHexAux, List.foldl_cons]
    rw [(hexDigitVal_of_isHex c (h c (by simp))).1]
    exact ih _ (fun x hx => h x (by simp [hx]))

/-- `from_str_radix(_, 16)` on a nonempty all-hex string returns its
value. -/
theorem from_str_radix16_hex (cs : List Char) (hne : cs ≠ [])
    (h : ∀ c ∈ cs, isAsciiHexDigit c = true) :
    from_str_radix16 cs = some (hexValList cs) := by
  cases cs with
  | nil => exact absurd rfl hne
  | cons c cs => exact parseHexAux_hex _ _ h

/-- The hex fold is bounded by the radix power. -/
theorem foldl_hex_lt (cs : List Char) (acc : ℕ)
    (h : ∀ c ∈ cs, isAsciiHexDigit c = true) :
    cs.foldl (fun a c => a * 16 + hexVal c) acc < (acc + 1) * 16 ^ cs.length := by
  induction cs generalizing acc with
  | nil => simp
  | cons c cs ih =>
    simp only [List.foldl_cons, List.length_cons]
    have hv : hexVal c < 16 := (hexDigitVal_of_isHex c (h c (by simp))).2
    have h1 := ih (acc * 16 + hexVal c) (fun x hx => h x (by simp [hx]))
    have h2 : (acc * 16 + hexVal c + 1) * 16 ^ cs.length ≤
        (acc + 1) * 16 ^ (cs.length + 1) := by
      have h3 : acc * 16 + hexVal c + 1 ≤ (acc + 1) * 16 := by omega
      calc (acc * 16 + hexVal c + 1) * 16 ^ cs.length
          ≤ (acc + 1) * 16 * 16 ^ cs.length := Nat.mul_le_mul_right _ h3
        _ = (acc + 1) * 16 ^ (cs.length + 1) := by ring
    exact lt_of_lt_of_le h1 h2

/-- The value of an all-hex digit string is below `16 ^ length`. -/
theorem hexValList_lt (cs : List Char)
    (h : ∀ c ∈ cs, isAsciiHexDigit c = true) :
    hexValList cs < 16 ^ cs.length := by
  have h1 := foldl_hex_lt cs 0 h
  simpa [hexValList] using h1

/-- `takeWhile is_ascii_hexdigit` on hex digits followed by a closing
quote collects exactly the digits. -/
theorem takeWhile_hex (ds : List Char)
    (hds : ∀ c ∈ ds, isAsciiHexDigit c = true) :
    (ds ++ ['"']).takeWhile isAsciiHexDigit = ds := by
  induction ds with
  | nil => rfl
  | cons c cs ih =>
    simp only [List.cons_append, List.takeWhile_cons]
    rw [hds c (by simp)]
    simp only [if_true, ite_true, List.cons.injEq, true_and]
    exact ih (fun x hx => hds x (by simp [hx]))

/-! ## Claim theorems -/

/-- C8: `blend_pixel` is source-over-destination compositing with the
source alpha as mix weight: alpha 255 replaces the destination, alpha 0
keeps it, and otherwise every output channel is
`(src_channel * src_alpha + dst_channel * (255 - src_alpha)) / 255`
with output alpha `src_alpha + dst_alpha * (255 - src_alpha) / 255`,
all in integer arithmetic scaled by 255. -/
theorem blend_pixel_source_over (dst src : ℕ) :
    (src / 2 ^ 24 % 256 = 255 → blend_pixel dst src = src) ∧
    (src / 2 ^ 24 % 256 = 0 → blend_pixel dst src = dst) ∧
    (0 < src / 2 ^ 24 % 256 → src / 2 ^ 24 % 256 < 255 →
      blend_pixel dst src / 2 ^ 24 % 256 =
        src / 2 ^ 24 % 256 +
          dst / 2 ^ 24 % 256 * (255 - src / 2 ^ 24 % 256) / 255 ∧
      blend_pixel dst src / 2 ^ 16 % 256 =
        (src / 2 ^ 16 % 256 * (src / 2 ^ 24 % 256) +
          dst / 2 ^ 16 % 256 * (255 - src / 2 ^ 24 % 256)) / 255 ∧
      blend_pixel dst src / 2 ^ 8 % 256 =
        (src / 2 ^ 8 % 256 * (src / 2 ^ 24 % 256) +
          dst / 2 ^ 8 % 256 * (255 - src / 2 ^ 24 % 256)) / 255 ∧
      blend_pixel dst src % 256 =
        (src % 256 * (src / 2 ^ 24 % 256) +
          dst % 256 * (255 - src / 2 ^ 24 % 256)) / 255) := by
  have hFF : (0xFF : ℕ) = 255 := rfl
  refine ⟨?_, ?_, ?_⟩
  · intro h
    unfold blend_pixel
    simp only [hFF, Nat.shiftRight_eq_div_pow, extract_low_byte]
    rw [h]
    norm_num
  · intro h
    unfold blend_pixel
    simp only [hFF, Nat.shiftRight_eq_div_pow, extract_low_byte]
    rw [h]
    norm_num
  · intro h0 h255
    unfold blend_pixel
    simp only [hFF, Nat.shiftRight_eq_div_pow, extract_low_byte]
    rw [if_neg (by omega), if_neg (by omega)]
    set sa := src / 2 ^ 24 % 256 with hsa
    set da := dst / 2 ^ 24 % 256 with hda
    set sr := src / 2 ^ 16 % 256 with hsr
    set sg := src / 2 ^ 8 % 256 with hsg
    set sb := src % 256 with hsb
    set dr := dst / 2 ^ 16 % 256 with hdr
    set dg := dst / 2 ^ 8 % 256 with hdg
    set db := dst % 256 with hdb
    have bsa : sa < 256 := Nat.mod_lt _ (by norm_num)
    have bda : da < 256 := Nat.mod_lt _ (by norm_num)
    have bsr : sr < 256 := Nat.mod_lt _ (by norm_num)
    have bsg : sg < 256 := Nat.mod_lt _ (by norm_num)
    have bsb : sb < 256 := Nat.mod_lt _ (by norm_num)
    have bdr : dr < 256 := Nat.mod_lt _ (by norm_num)
    have bdg : dg < 256 := Nat.mod_lt _ (by norm_num)
    have bdb : db < 256 := Nat.mod_lt _ (by norm_num)
    have houtA : sa + da * (255 - sa) / 255 < 256 := by
      have h1 : da * (255 - sa) ≤ 255 * (255 - sa) :=
        Nat.mul_le_mul_right _ (by omega)
      have h2 : da * (255 - sa) / 255 ≤ 255 * (255 - sa) / 255 :=
        Nat.div_le_div_right h1
      rw [Nat.mul_div_cancel_left _ (by norm_num : (0:ℕ) < 255)] at h2
      omega
    have hchan : ∀ sc dc : ℕ, sc < 256 → dc < 256 →
        (sc * sa + dc * (255 - sa)) / 255 < 256 := by
      intro sc dc hsc hdc
      have h1 : sc * sa + dc * (255 - sa) ≤ 255 * sa + 255 * (255 - sa) :=
        Nat.add_le_add (Nat.mul_le_mul_right _ (by omega))
          (Nat.mul_le_mul_right _ (by omega))
      have h2 : 255 * sa + 255 * (255 - sa) = 255 * 255 := by omega
      have h3 : (sc * sa + dc * (255 - sa)) / 255 ≤ 255 * 255 / 255 :=
        Nat.div_le_div_right (h2 ▸ h1)
      norm_num at h3
      omega
    have houtR := hchan sr dr bsr bdr
    have houtG := hchan sg dg bsg bdg
    have houtB := hchan sb db bsb bdb
    rw [pack4_eq _ _ _ _ houtR houtG houtB]
    exact bytes_of_pack _ _ _ _ houtA houtR houtG houtB

/-- C8 witness: a concrete blend at src alpha 0x80. -/
theorem blend_pixel_source_over_witness :
    blend_pixel 0xFF222222 0x80FFFFFF / 2 ^ 16 % 256 =
      (0x80FFFFFF / 2 ^ 16 % 256 * (0x80FFFFFF / 2 ^ 24 % 256) +
        0xFF222222 / 2 ^ 16 % 256 * (255 - 0x80FFFFFF / 2 ^ 24 % 256)) / 255 :=
  ((blend_pixel_source_over 0xFF222222 0x80FFFFFF).2.2 (by norm_num)
    (by norm_num)).2.1

/-- C5: on the legacy cursor-set path, the very first hotspot is always
applied exactly (no baseline yet), and with smoothing on, baseline
(0,0) and threshold 5, a new raw hotspot (30,0) is damped to one third
of the delta: (10,0), not (30,0). -/
theorem drmModeSetCursor2_hotspot_smoothing (st : HotspotState)
    (newHotX newHotY : Int) (smoothing : Bool) (threshold : Int) :
    (st.initialized = false →
      drmModeSetCursor2_hotspot smoothing threshold st newHotX newHotY =
        ((newHotX, newHotY), ⟨true, newHotX, newHotY⟩)) ∧
    drmModeSetCursor2_hotspot true 5 ⟨true, 0, 0⟩ 30 0 =
      ((10, 0), ⟨true, 10, 0⟩) := by
  constructor
  · intro h
    unfold drmModeSetCursor2_hotspot
    rw [h]
    simp
  · decide

/-- C5 witness: a concrete first-ever hotspot is applied exactly. -/
theorem drmModeSetCursor2_hotspot_smoothing_witness :
    drmModeSetCursor2_hotspot true 7 ⟨false, 3, 4⟩ 30 0 =
      ((30, 0), ⟨true, 30, 0⟩) :=
  (drmModeSetCursor2_hotspot_smoothing ⟨false, 3, 4⟩ 30 0 true 7).1 rfl

/-- Closed form of the fade-out alpha sequence. -/
theorem fadeOutAlpha_closed (speed k : ℕ) :
    fadeOutAlpha speed k = 255 - k * fadeStep speed := by
  induction k with
  | zero => simp [fadeOutAlpha]
  | succ k ih =>
      have h : (k + 1) * fadeStep speed = k * fadeStep speed + fadeStep speed := by
        ring
      simp only [fadeOutAlpha, ih]
      omega

/-- Closed form of the fade-in alpha sequence. -/
theorem fadeInAlpha_closed (speed k : ℕ) :
    fadeInAlpha speed k = min (k * fadeStep speed) 255 := by
  induction k with
  | zero => simp [fadeInAlpha]
  | succ k ih =>
      have h : (k + 1) * fadeStep speed = k * fadeStep speed + fadeStep speed := by
        ring
      simp only [fadeInAlpha, ih]
      omega

/-- Ceiling division recovers at least the numerator. -/
theorem ceil_mul_ge (s : ℕ) (hs : 0 < s) : 255 ≤ (255 + s - 1) / s * s := by
  have h := Nat.div_add_mod (255 + s - 1) s
  have hr : (255 + s - 1) % s < s := Nat.mod_lt _ hs
  rw [Nat.mul_comm]
  generalize hsq : s * ((255 + s - 1) / s) = t at h ⊢
  omega

/-- The fade step is at least 5 ticks of alpha. -/
theorem fadeStep_pos (speed : ℕ) : 5 ≤ fadeStep speed := Nat.le_max_right _ _

/-- After `fadeOutStepBound` ticks, at least 255 alpha has been consumed. -/
theorem fadeOutStepBound_mul_ge (speed : ℕ) :
    255 ≤ fadeOutStepBound speed * fadeStep speed := by
  unfold fadeOutStepBound
  exact ceil_mul_ge _ (by have := fadeStep_pos speed; omega)

/-- C6: fade progression is monotone and terminating: the fade-out alpha
sequence is non-increasing and reaches exactly 0 within `⌈255/step⌉`
ticks (at most 51 since the step is at least 5), and the fade-in alpha
sequence is non-decreasing and reaches exactly 255 within the same
bound; hence both fade loops, which exit as soon as their alpha hits
the terminal value (or the governing flag clears), terminate. -/
theorem fade_monotone_terminates (speed : ℕ) :
    (∀ k, fadeOutAlpha speed (k + 1) ≤ fadeOutAlpha speed k) ∧
    fadeOutAlpha speed (fadeOutStepBound speed) = 0 ∧
    fadeOutStepBound speed ≤ 51 ∧
    (∀ k, fadeInAlpha speed k ≤ fadeInAlpha speed (k + 1)) ∧
    fadeInAlpha speed (fadeOutStepBound speed) = 255 := by
  have hs : 5 ≤ fadeStep speed := fadeStep_pos speed
  have hmul := fadeOutStepBound_mul_ge speed
  refine ⟨?_, ?_, ?_, ?_, ?_⟩
  · intro k
    simp only [fadeOutAlpha]
    omega
  · rw [fadeOutAlpha_closed]
    generalize ht : fadeOutStepBound speed * fadeStep speed = t at hmul ⊢
    omega
  · unfold fadeOutStepBound
    have h1 : (255 + fadeStep speed - 1) / fadeStep speed =
        254 / fadeStep speed + 1 := by
      have h0 : 255 + fadeStep speed - 1 = 254 + fadeStep speed := by omega
      rw [h0, Nat.add_div_right _ (by omega)]
    rw [h1]
    have h2 : 254 / fadeStep speed ≤ 254 / 5 := Nat.div_le_div_left hs (by norm_num)
    norm_num at h2
    omega
  · intro k
    rw [fadeInAlpha_closed, fadeInAlpha_closed]
    have h : (k + 1) * fadeStep speed = k * fadeStep speed + fadeStep speed := by
      ring
    omega
  · rw [fadeInAlpha_closed]
    generalize ht : fadeOutStepBound speed * fadeStep speed = t at hmul ⊢
    omega

/-- C7: `create_cursor_buffer` is atomic on error (any failing step
returns false with every tracked global untouched, so a later call can
retry) and on success records handle, framebuffer id, fd and
dimensions, marks the surface initialized, and runs exactly one render
pass. -/
theorem create_cursor_buffer_atomic (env : CreateEnv) (s : Surface)
    (fd : Int) (width height : ℕ) :
    ((create_cursor_buffer env s fd width height).1 = false →
      (create_cursor_buffer env s fd width height).2 = s) ∧
    (∀ d o fb, env.createDumb = some d → env.mapDumb = some o →
      env.mmapOk = true → env.addFb = some fb →
      create_cursor_buffer env s fd width height =
        (true,
          { initialized := true, handle := d.handle, fbId := fb, fd := fd,
            width := width, height := height, bufferSet := true,
            renderCalls := s.renderCalls + 1 })) := by
  obtain ⟨cd, md, mo, af⟩ := env
  constructor
  · intro h
    cases cd with
    | none => rfl
    | some d =>
      cases md with
      | none => rfl
      | some o =>
        cases mo with
        | false => rfl
        | true =>
          cases af with
          | none => rfl
          | some fb => simp [create_cursor_buffer] at h
  · intro d o fb hd ho hm hf
    cases hd
    cases ho
    cases hm
    cases hf
    rfl

/-- C7 witness: one failing run (dumb-buffer allocation fails) leaves
the surface untouched, and one succeeding run sets all fields and
renders once. -/
theorem create_cursor_buffer_atomic_witness :
    (create_cursor_buffer ⟨none, some 4096, true, some 99⟩
        ⟨false, 0, 0, -1, 0, 0, false, 0⟩ 3 256 256).2 =
      ⟨false, 0, 0, -1, 0, 0, false, 0⟩ ∧
    create_cursor_buffer ⟨some ⟨7, 1024, 262144⟩, some 4096, true, some 99⟩
        ⟨false, 0, 0, -1, 0, 0, false, 0⟩ 3 256 256 =
      (true, { initialized := true, handle := 7, fbId := 99, fd := 3,
               width := 256, height := 256, bufferSet := true,
               renderCalls := 1 }) :=
  ⟨(create_cursor_buffer_atomic ⟨none, some 4096, true, some 99⟩
      ⟨false, 0, 0, -1, 0, 0, false, 0⟩ 3 256 256).1 rfl,
   (create_cursor_buffer_atomic ⟨some ⟨7, 1024, 262144⟩, some 4096, true, some 99⟩
      ⟨false, 0, 0, -1, 0, 0, false, 0⟩ 3 256 256).2 ⟨7, 1024, 262144⟩ 4096 99
      rfl rfl rfl rfl⟩

/-- C2: for a nonempty point sequence, `transform_points` translates
every point so the hotspot (the first point) is at the origin, scales
uniformly, rotates by the standard 2D rotation matrix
(`rotScale`), translates again so the bounding-box minimum corner is
at (0,0), and returns that second translation rounded to the nearest
integer per axis as the hotspot offset; in particular at scale 1 and
rotation 0 (cos 1, sin 0) the output is the input translated only by
its own bounding-box normalization. -/
theorem transform_points_normalizes (p0 : ℚ × ℚ) (ps : List (ℚ × ℚ))
    (scale cosr sinr : ℚ) :
    (transform_points (p0 :: ps) scale cosr sinr).1 =
      (p0 :: ps).map (fun q =>
        ((rotScale p0 scale cosr sinr q).1 -
          foldMin (((p0 :: ps).map (rotScale p0 scale cosr sinr)).map Prod.fst),
         (rotScale p0 scale cosr sinr q).2 -
          foldMin (((p0 :: ps).map (rotScale p0 scale cosr sinr)).map Prod.snd))) ∧
    (transform_points (p0 :: ps) scale cosr sinr).2 =
      (rustRound (-foldMin (((p0 :: ps).map
          (rotScale p0 scale cosr sinr)).map Prod.fst)),
       rustRound (-foldMin (((p0 :: ps).map
          (rotScale p0 scale cosr sinr)).map Prod.snd))) ∧
    (transform_points (p0 :: ps) 1 1 0).1 =
      (p0 :: ps).map (fun q =>
        (q.1 - foldMin ((p0 :: ps).map Prod.fst),
         q.2 - foldMin ((p0 :: ps).map Prod.snd))) := by
  have hlam : ∀ (s c r : ℚ) (q : ℚ × ℚ),
      ((q.1 - p0.1) * s * c - (q.2 - p0.2) * s * r,
       (q.1 - p0.1) * s * r + (q.2 - p0.2) * s * c) = rotScale p0 s c r q :=
    fun _ _ _ _ => rfl
  have hchar : ∀ s c r : ℚ, (transform_points (p0 :: ps) s c r).1 =
      (p0 :: ps).map (fun q =>
        ((rotScale p0 s c r q).1 -
          foldMin (((p0 :: ps).map (rotScale p0 s c r)).map Prod.fst),
         (rotScale p0 s c r q).2 -
          foldMin (((p0 :: ps).map (rotScale p0 s c r)).map Prod.snd))) := by
    intro s c r
    simp only [transform_points, hlam, List.map_map, Function.comp_def]
  refine ⟨hchar scale cosr sinr, ?_, ?_⟩
  · simp only [transform_points, hlam, List.map_map, Function.comp_def]
  · rw [hchar 1 1 0]
    have h1 : ∀ q : ℚ × ℚ, rotScale p0 1 1 0 q = (q.1 - p0.1, q.2 - p0.2) := by
      intro q
      unfold rotScale
      norm_num
    have hmapeq : (p0 :: ps).map (rotScale p0 1 1 0) =
        (p0 :: ps).map (fun q => (q.1 - p0.1, q.2 - p0.2)) :=
      List.map_congr_left (fun a _ => h1 a)
    have hfst : (((p0 :: ps).map (rotScale p0 1 1 0)).map Prod.fst) =
        ((p0 :: ps).map Prod.fst).map (fun y => y - p0.1) := by
      rw [hmapeq, List.map_map, List.map_map]
      rfl
    have hsnd : (((p0 :: ps).map (rotScale p0 1 1 0)).map Prod.snd) =
        ((p0 :: ps).map Prod.snd).map (fun y => y - p0.2) := by
      rw [hmapeq, List.map_map, List.map_map]
      rfl
    have hminx : foldMin (((p0 :: ps).map (rotScale p0 1 1 0)).map Prod.fst) =
        foldMin ((p0 :: ps).map Prod.fst) - p0.1 := by
      rw [hfst]
      exact foldMin_map_sub _ _ (by simp)
    have hminy : foldMin (((p0 :: ps).map (rotScale p0 1 1 0)).map Prod.snd) =
        foldMin ((p0 :: ps).map Prod.snd) - p0.2 := by
      rw [hsnd]
      exact foldMin_map_sub _ _ (by simp)
    apply List.map_congr_left
    intro q hq
    rw [h1 q, hminx, hminy]
    simp only [Prod.mk.injEq]
    constructor <;> ring

/-- C10: `transform_points` maps the empty point sequence to the empty
sequence with hotspot offset exactly (0, 0), for every scale and
rotation. -/
theorem transform_points_empty (scale cosr sinr : ℚ) :
    transform_points [] scale cosr sinr = ([], (0, 0)) := rfl

/-- C3 counterexample: the enumeration does not run "at most once per
plane id".  On a plane whose enumeration reports "not a cursor plane"
(empty registry, fd captured), two consecutive classification attempts
both run the expensive property enumeration, because only cursor-type
planes are ever cached. -/
theorem try_detect_requery_counterexample :
    (try_detect_cursor_plane wEnvNone true [] 5).queried = true ∧
    (try_detect_cursor_plane wEnvNone true
        (try_detect_cursor_plane wEnvNone true [] 5).reg 5).queried = true := by
  decide

/-- C3 (amended): classification is memoized for planes that are
classified cursor-type while the registry has room: the first call
enumerates once and records the enumerated property ids; a second call
on the same plane id returns the cached classification without
enumerating, with the registry (hence the recorded property ids)
identical.  Planes whose enumeration does not report cursor-type are
not cached and are re-enumerated on later attempts. -/
theorem try_detect_memoized (env : ℕ → PlaneQuery) (reg : Registry) (p : ℕ)
    (hfree : reg.length < 8) (hnew : get_cursor_plane_index reg p = none)
    (hc : (env p).isCursor = true) :
    (try_detect_cursor_plane env true reg p).found = true ∧
    (try_detect_cursor_plane env true reg p).queried = true ∧
    (try_detect_cursor_plane env true reg p).reg =
      reg ++ [⟨p, (env p).fbProp, (env p).srcWProp, (env p).srcHProp,
              (env p).crtcWProp, (env p).crtcHProp⟩] ∧
    (try_detect_cursor_plane env true
        (try_detect_cursor_plane env true reg p).reg p).found = true ∧
    (try_detect_cursor_plane env true
        (try_detect_cursor_plane env true reg p).reg p).queried = false ∧
    (try_detect_cursor_plane env true
        (try_detect_cursor_plane env true reg p).reg p).reg =
      (try_detect_cursor_plane env true reg p).reg := by
  have h1 := try_detect_fresh env reg p hfree hnew hc
  have hidx2 : get_cursor_plane_index
      ((try_detect_cursor_plane env true reg p).reg) p = some reg.length := by
    rw [h1]
    exact get_index_concat reg p _ hnew rfl
  have h2 := try_detect_registered env
    ((try_detect_cursor_plane env true reg p).reg) p reg.length hidx2
  rw [h2, h1]
  simp

/-- C3 witness: a fresh cursor plane 5 on an empty registry. -/
theorem try_detect_memoized_witness :
    (try_detect_cursor_plane wEnvCursor true [] 5).found = true ∧
    (try_detect_cursor_plane wEnvCursor true [] 5).queried = true ∧
    (try_detect_cursor_plane wEnvCursor true [] 5).reg =
      [] ++ [⟨5, (wEnvCursor 5).fbProp, (wEnvCursor 5).srcWProp,
             (wEnvCursor 5).srcHProp, (wEnvCursor 5).crtcWProp,
             (wEnvCursor 5).crtcHProp⟩] ∧
    (try_detect_cursor_plane wEnvCursor true
        (try_detect_cursor_plane wEnvCursor true [] 5).reg 5).found = true ∧
    (try_detect_cursor_plane wEnvCursor true
        (try_detect_cursor_plane wEnvCursor true [] 5).reg 5).queried = false ∧
    (try_detect_cursor_plane wEnvCursor true
        (try_detect_cursor_plane wEnvCursor true [] 5).reg 5).reg =
      (try_detect_cursor_plane wEnvCursor true [] 5).reg :=
  try_detect_memoized wEnvCursor [] 5 (by norm_num) rfl rfl

/-- C4: the registry is append-only with capacity 8: registering a 9th
distinct cursor-type plane returns the out-of-range index and leaves
all 8 entries (plane ids and recorded property ids) unchanged, and an
atomic property call targeting that 9th plane forwards the
compositor's value unmodified. -/
theorem registry_capacity_ninth (cfg : Config) (env : ℕ → PlaneQuery)
    (createEnv : CreateEnv) (st : GlobalState) (objectId propertyId value : ℕ)
    (hfull : st.reg.length = 8)
    (hnew : get_cursor_plane_index st.reg objectId = none) :
    register_cursor_plane st.reg objectId = (8, st.reg) ∧
    (drmModeAtomicAddProperty cfg env createEnv true st
        objectId propertyId value).state.reg = st.reg ∧
    (drmModeAtomicAddProperty cfg env createEnv true st
        objectId propertyId value).forwarded = some value := by
  refine ⟨register_cursor_plane_full _ _ hfull hnew, ?_⟩
  have hdreg := try_detect_full_reg env (decide (0 ≤ st.surface.fd))
    st.reg objectId hfull hnew
  unfold drmModeAtomicAddProperty
  rw [hnew]
  simp only [Option.isSome_none, Bool.false_eq_true, if_false]
  by_cases hfound : (try_detect_cursor_plane env (decide (0 ≤ st.surface.fd))
      st.reg objectId).found = true
  · simp only [hfound, if_true, hdreg]
    by_cases hinit : st.surface.initialized = true
    · simp [hinit, hnew]
    · simp only [Bool.not_eq_true] at hinit
      simp only [hinit]
      by_cases hfd : (0 : Int) ≤ st.surface.fd
      · simp [hfd, hnew]
      · simp [hfd, hnew]
  · simp only [Bool.not_eq_true] at hfound
    simp [hfound, hdreg]

/-- C4 witness: plane 100 against a full registry of planes 1..8. -/
theorem registry_capacity_ninth_witness :
    register_cursor_plane wStateFull.reg 100 = (8, wStateFull.reg) ∧
    (drmModeAtomicAddProperty wCfg wEnvCursor wCreateEnv true wStateFull
        100 33 0).state.reg = wStateFull.reg ∧
    (drmModeAtomicAddProperty wCfg wEnvCursor wCreateEnv true wStateFull
        100 33 0).forwarded = some 0 :=
  registry_capacity_ninth wCfg wEnvCursor wCreateEnv wStateFull 100 33 0
    (by decide) (by decide)

/-- C1: an atomic FB_ID write of 0 (hide) on a registered cursor plane,
with fade enabled, no fade-out in progress, an initialized surface
with nonzero owned framebuffer id and the real atomic-add resolved:
the call sets the fading-out flag, marks the cursor not visible, and
forwards the owned framebuffer id instead of the 0. -/
theorem atomic_fb_zero_starts_fadeout (cfg : Config) (env : ℕ → PlaneQuery)
    (createEnv : CreateEnv) (st : GlobalState) (objectId propertyId idx : ℕ)
    (e : PlaneEntry)
    (hidx : get_cursor_plane_index st.reg objectId = some idx)
    (hentry : st.reg.get? idx = some e)
    (hfb : e.fbProp = propertyId) (hp0 : propertyId ≠ 0)
    (hfade : cfg.fadeEnabled = true) (hnofade : st.fadingOut = false)
    (hinit : st.surface.initialized = true) (hfbid : st.surface.fbId ≠ 0) :
    (drmModeAtomicAddProperty cfg env createEnv true st
        objectId propertyId 0).state.fadingOut = true ∧
    (drmModeAtomicAddProperty cfg env createEnv true st
        objectId propertyId 0).state.visible = false ∧
    (drmModeAtomicAddProperty cfg env createEnv true st
        objectId propertyId 0).forwarded = some st.surface.fbId ∧
    (drmModeAtomicAddProperty cfg env createEnv true st
        objectId propertyId 0).forwarded ≠ some 0 := by
  have hmain : drmModeAtomicAddProperty cfg env createEnv true st
      objectId propertyId 0 =
      ⟨some st.surface.fbId,
        { st with fadingIn := false, visible := false, fadingOut := true,
                  fadeThreadRunning := true }⟩ := by
    unfold drmModeAtomicAddProperty
    rw [hidx]
    simp only [Option.isSome_some, if_true, hinit, not_true, Bool.not_true,
      Bool.false_eq_true, if_false, ite_false, ite_true]
    rw [hidx]
    simp only [hentry, Option.getD_some]
    unfold fbBranch
    rw [hfb]
    simp only [Option.getD_some, ne_eq, hp0, not_false_eq_true, true_and,
      if_true, hfade, hnofade]
    simp [hfbid]
  rw [hmain]
  refine ⟨rfl, rfl, rfl, ?_⟩
  simp [hfbid]

/-- C1 witness: hide request on registered plane 9 (FB_ID property 33)
with fade enabled and owned framebuffer 77. -/
theorem atomic_fb_zero_starts_fadeout_witness :
    (drmModeAtomicAddProperty wCfg wEnvNone wCreateEnv true wState
        9 33 0).state.fadingOut = true ∧
    (drmModeAtomicAddProperty wCfg wEnvNone wCreateEnv true wState
        9 33 0).state.visible = false ∧
    (drmModeAtomicAddProperty wCfg wEnvNone wCreateEnv true wState
        9 33 0).forwarded = some wState.surface.fbId ∧
    (drmModeAtomicAddProperty wCfg wEnvNone wCreateEnv true wState
        9 33 0).forwarded ≠ some 0 :=
  atomic_fb_zero_starts_fadeout wCfg wEnvNone wCreateEnv wState 9 33 0 wEntry
    (by decide) (by decide) (by decide) (by decide) (by decide) (by decide)
    (by decide) (by decide)

/-- C9: hex color parsing round-trips: for every valid 8-hex-digit
string the parsed 32-bit value carries the written alpha byte and the
written RGB bytes, and for every valid 6-hex-digit string the parsed
value carries alpha 255 with the written RGB bytes, so re-encoding the
parsed value recovers the written alpha/RGB digits in both forms. -/
theorem parse_color_roundtrip (ds : List Char)
    (hds : ∀ c ∈ ds, isAsciiHexDigit c = true) :
    (ds.length = 8 →
      parse_color (mkColorContent ds) ['f', 'i', 'l', 'l'] =
        some (hexValList (ds.take 2) * 2 ^ 24 + hexValList (ds.drop 2)) ∧
      (hexValList (ds.take 2) * 2 ^ 24 + hexValList (ds.drop 2)) / 2 ^ 24 % 256 =
        hexValList (ds.take 2) ∧
      (hexValList (ds.take 2) * 2 ^ 24 + hexValList (ds.drop 2)) % 2 ^ 24 =
        hexValList (ds.drop 2)) ∧
    (ds.length = 6 →
      parse_color (mkColorContent ds) ['f', 'i', 'l', 'l'] =
        some (255 * 2 ^ 24 + hexValList ds) ∧
      (255 * 2 ^ 24 + hexValList ds) / 2 ^ 24 % 256 = 255 ∧
      (255 * 2 ^ 24 + hexValList ds) % 2 ^ 24 = hexValList ds) := by
  have hfind : findSub (mkColorContent ds) ('"' :: ['f', 'i', 'l', 'l'] ++ ['"']) = some 0 := rfl
  have hchar : findChar ((mkColorContent ds).drop 0) '#' = some 8 := rfl
  have hdrop : (mkColorContent ds).drop (0 + 8 + 1) = ds ++ ['"'] := rfl
  have htw : ((mkColorContent ds).drop (0 + 8 + 1)).takeWhile isAsciiHexDigit = ds := by
    rw [hdrop]
    exact takeWhile_hex ds hds
  constructor
  · intro h8
    have hhex2 : ∀ c ∈ ds.take 2, isAsciiHexDigit c = true :=
      fun c hc => hds c (List.take_subset 2 ds hc)
    have hhex6 : ∀ c ∈ ds.drop 2, isAsciiHexDigit c = true :=
      fun c hc => hds c (List.drop_subset 2 ds hc)
    have hl2 : (ds.take 2).length = 2 := by simp [List.length_take, h8]
    have hlen6 : (ds.drop 2).length = 6 := by simp [List.length_drop, h8]
    have hne2 : ds.take 2 ≠ [] := by
      intro hnil
      rw [hnil] at hl2
      simp at hl2
    have hne6 : ds.drop 2 ≠ [] := by
      intro hnil
      rw [hnil] at hlen6
      simp at hlen6
    have htake6 : (ds.drop 2).take 6 = ds.drop 2 := by
      rw [← hlen6]
      exact List.take_length _
    have ha := from_str_radix16_hex (ds.take 2) hne2 hhex2
    have hrgb := from_str_radix16_hex (ds.drop 2) hne6 hhex6
    have hba : hexValList (ds.take 2) < 256 := by
      have h := hexValList_lt (ds.take 2) hhex2
      rw [hl2] at h
      norm_num at h
      exact h
    have hbrgb : hexValList (ds.drop 2) < 2 ^ 24 := by
      have h := hexValList_lt (ds.drop 2) hhex6
      rw [hlen6] at h
      norm_num at h ⊢
      exact h
    have hpack : (hexValList (ds.take 2) <<< 24) ||| hexValList (ds.drop 2) =
        hexValList (ds.take 2) * 2 ^ 24 + hexValList (ds.drop 2) := by
      rw [Nat.shiftLeft_eq]
      exact lor_of_lt 24 _ _ hbrgb
    refine ⟨?_, ?_, ?_⟩
    · simp only [parse_color, hfind, hchar, htw, h8, htake6, ha, hrgb, hpack]
      norm_num
    · have h1 : hexValList (ds.take 2) * 2 ^ 24 + hexValList (ds.drop 2) < 2 ^ 32 := by
        norm_num at hba hbrgb ⊢
        omega
      norm_num at hba hbrgb ⊢
      omega
    · norm_num at hbrgb ⊢
      omega
  · intro h6
    have hne : ds ≠ [] := by
      intro hnil
      rw [hnil] at h6
      simp at h6
    have htake6 : ds.take 6 = ds := by
      rw [← h6]
      exact List.take_length _
    have hrgb := from_str_radix16_hex ds hne hds
    have hbrgb : hexValList ds < 2 ^ 24 := by
      have h := hexValList_lt ds hds
      rw [h6] at h
      norm_num at h ⊢
      exact h
    have hpack : ((255 : ℕ) <<< 24) ||| hexValList ds =
        255 * 2 ^ 24 + hexValList ds := by
      rw [Nat.shiftLeft_eq]
      exact lor_of_lt 24 _ _ hbrgb
    refine ⟨?_, ?_, ?_⟩
    · simp only [parse_color, hfind, hchar, htw, h6, htake6, hrgb, hpack]
      norm_num
    · norm_num at hbrgb ⊢
      omega
    · norm_num at hbrgb ⊢
      omega

/-- C9 witness: the 8-digit string 80112233 parses to alpha 0x80 and
rgb 0x112233. -/
theorem parse_color_roundtrip_witness :
    parse_color (mkColorContent ['8', '0', '1', '1', '2', '2', '3', '3'])
        ['f', 'i', 'l', 'l'] =
      some (hexValList (['8', '0', '1', '1', '2', '2', '3', '3'].take 2) * 2 ^ 24 +
            hexValList (['8', '0', '1', '1', '2', '2', '3', '3'].drop 2)) :=
  ((parse_color_roundtrip ['8', '0', '1', '1', '2', '2', '3', '3']
      (by decide)).1 (by decide)).1

end ConstellationCursor
